import Mathlib

/-!
Shallow embedding of the RedEyeAgent workflow orchestration engine:
the agent registry and task dispatcher (`agent-manager`, src/unnamed/part_008)
and the workflow definition store and execution engine
(`workflow-manager`, src/unnamed/part_005), over the data model of
`agents/types` (AgentTask, AgentContext, AgentResult, Agent).

External collaborators (codebase analyzer, git hooks, the approval prompt,
config defaults, file persistence) are modelled as explicit parameters,
exactly as the spec's §6 describes them as narrow interfaces.  JavaScript
`Record<string, T>` objects are modelled as association lists with
first-match lookup and overwrite-in-place update; thrown exceptions are
modelled with `Except String`; the engine loop, which the source writes as
a `while` loop, is modelled with explicit fuel, returning `RunOut.fuelOut`
when the fuel runs out.  A ghost trace of `Event`s records the calls the
engine makes (dispatches, approval prompts, skips, git hook calls).
-/

namespace RedEyeAgent

/-- JS `record[key]`: first binding wins (keys are unique by construction). -/
def recordGet {α : Type} (m : List (String × α)) (k : String) : Option α :=
  match m with
  | [] => none
  | (k2, v) :: rest => if k2 = k then some v else recordGet rest k

/-- JS `record[key] = value`: overwrite the existing binding, else append. -/
def recordSet {α : Type} (m : List (String × α)) (k : String) (v : α) : List (String × α) :=
  match m with
  | [] => [(k, v)]
  | (k2, v2) :: rest => if k2 = k then (k, v) :: rest else (k2, v2) :: recordSet rest k v

/-- `AgentResult` from src/src/agents/types.ts: `{ success, output, error?, metadata? }`
(the open-ended `output`/`metadata` payloads are modelled opaquely). -/
structure AgentResult where
  success : Bool
  output : Option String
  error : Option String
  metadata : List (String × String)
deriving DecidableEq

/-- `AgentTask` from src/src/agents/types.ts: `{ id, type, description, input }`;
`type` is the capability-requirement tag, `input` an open-ended object. -/
structure AgentTask where
  id : String
  type : String
  description : String
  input : List (String × String)

/-- The codebase snapshot placed in the context (`context.codebase`). -/
structure Codebase where
  rootDir : String
  files : List (String × String)

/-- `context.options` is set to the object `{ input }` in `runWorkflow`. -/
structure ContextOptions where
  input : List (String × String)

/-- `AgentContext` from src/src/agents/types.ts, as populated by `runWorkflow`:
codebase snapshot, step-id → result map, and the optional `{ input }` options. -/
structure AgentContext where
  codebase : Codebase
  results : List (String × AgentResult)
  options : Option ContextOptions

/-- `Agent` from src/src/agents/types.ts: named, described, capability-tagged,
with one operation `executeTask(task, context)`, modelled as a pure function. -/
structure Agent where
  name : String
  description : String
  capabilities : List String
  executeTask : AgentTask → AgentContext → AgentResult

/-- The module-level `agents: Record<string, Agent>` of agent-manager. -/
abbrev AgentRegistry := List (String × Agent)

/-- `getAgent` (src/unnamed/part_008 lines 53–59): lookup by name, throwing
`Agent <name> not found` when absent. -/
def getAgent (agents : AgentRegistry) (agentName : String) : Except String Agent :=
  match recordGet agents agentName with
  | none => .error ("Agent " ++ agentName ++ " not found")
  | some agent => .ok agent

/-- `executeTask` (src/unnamed/part_008 lines 75–104): switch on `task.type`
mapping the tag to a registry key, then run the resolved agent; the default
case throws `Unknown task type`. -/
def executeTask (agents : AgentRegistry) (task : AgentTask) (context : AgentContext) :
    Except String AgentResult :=
  match task.type with
  | "code-generation" => (getAgent agents "codeGeneration").map (fun a => a.executeTask task context)
  | "code-review" => (getAgent agents "codeReview").map (fun a => a.executeTask task context)
  | "error-fixing" => (getAgent agents "errorFixing").map (fun a => a.executeTask task context)
  | "refactoring" => (getAgent agents "refactoring").map (fun a => a.executeTask task context)
  | "testing" => (getAgent agents "testing").map (fun a => a.executeTask task context)
  | "langgraph" => (getAgent agents "langgraph").map (fun a => a.executeTask task context)
  | other => .error ("Unknown task type: " ++ other)

/-- The registry key `executeTask`'s switch associates with each known tag
(specification table used to state the dispatcher theorems). -/
def agentNameFor (taskType : String) : Option String :=
  match taskType with
  | "code-generation" => some "codeGeneration"
  | "code-review" => some "codeReview"
  | "error-fixing" => some "errorFixing"
  | "refactoring" => some "refactoring"
  | "testing" => some "testing"
  | "langgraph" => some "langgraph"
  | _ => none

/-- The error message `executeTask` throws when the tag is unknown or the
mapped agent is unregistered. -/
def dispatchErrorMessage (task : AgentTask) : String :=
  match agentNameFor task.type with
  | some n => "Agent " ++ n ++ " not found"
  | none => "Unknown task type: " ++ task.type

/-- The mapped worker name is unregistered, or the tag is unknown. -/
def workerUnavailable (agents : AgentRegistry) (task : AgentTask) : Bool :=
  match agentNameFor task.type with
  | some n => (recordGet agents n).isNone
  | none => true

/-- `next?: string | ((context) => string)` of `WorkflowStep`, as the
tagged variant the spec's §9 describes. -/
inductive NextSelector where
  | static (stepId : String)
  | computed (f : AgentContext → String)

/-- `WorkflowStep` (src/unnamed/part_005 lines 15–22). -/
structure WorkflowStep where
  id : String
  name : String
  description : String
  task : AgentTask
  condition : Option (AgentContext → Bool)
  next : Option NextSelector

/-- `Workflow` (src/unnamed/part_005 lines 27–32). -/
structure Workflow where
  id : String
  name : String
  description : String
  steps : List WorkflowStep

/-- The module-level `workflows: Record<string, Workflow>` map. -/
abbrev WorkflowStore := List (String × Workflow)

/-- `registerWorkflow` (src/unnamed/part_005 lines 253–255): unconditional
insert by id, no validation. -/
def registerWorkflow (workflows : WorkflowStore) (workflow : Workflow) : WorkflowStore :=
  recordSet workflows workflow.id workflow

/-- `getWorkflow` (src/unnamed/part_005 lines 262–268): lookup by id,
throwing `Workflow <id> not found` when absent. -/
def getWorkflow (workflows : WorkflowStore) (id : String) : Except String Workflow :=
  match recordGet workflows id with
  | none => .error ("Workflow " ++ id ++ " not found")
  | some workflow => .ok workflow

/-- `createWorkflow` (src/unnamed/part_005 lines 417–443): validate
non-empty id/name/description and a non-empty step list (JS falsiness of
the empty string), then register; the file persistence that follows is
external I/O and is not part of the returned store.  Returns the updated
store together with the created workflow. -/
def createWorkflow (workflows : WorkflowStore) (workflow : Workflow) :
    Except String (WorkflowStore × Workflow) :=
  if workflow.id = "" ∨ workflow.name = "" ∨ workflow.description = "" ∨ workflow.steps.isEmpty then
    .error "Invalid workflow definition"
  else
    .ok (registerWorkflow workflows workflow, workflow)

/-- `askForApproval` (src/unnamed/part_005 lines 405–410): the shipped
placeholder logs the message and always returns true; the engine treats the
callback as an external collaborator, so the run functions below take the
callback as a parameter and this placeholder is one possible instantiation. -/
def askForApproval (_message : String) : Bool :=
  true

/-- One entry of the `results` array the engine returns:
`{ step: step.name, result }`. -/
structure StepResult where
  step : String
  result : AgentResult
deriving DecidableEq

/-- Ghost trace of the calls the engine makes, in chronological order. -/
inductive Event where
  | dispatch (stepId : String) (success : Bool)
  | dispatchFailure (stepId : String)
  | approval (answer : Bool)
  | skipped (stepId : String)
  | gitCommitCall
  | gitPushCall
deriving DecidableEq

/-- Outcome of a run: normal return with the ordered result list, a
propagated exception (the result list is lost, as in the source, where the
`catch` rethrows), or fuel exhaustion (the `while` loop is still running).
The event trace is ghost state and is kept in every case. -/
inductive RunOut where
  | done (results : List StepResult) (trace : List Event)
  | err (msg : String) (trace : List Event)
  | fuelOut (trace : List Event)
deriving DecidableEq

/-- Prepend the current iteration's result entries and events to the
outcome of the rest of the run. -/
def RunOut.push (rs : List StepResult) (evs : List Event) : RunOut → RunOut
  | .done results tr => .done (rs ++ results) (evs ++ tr)
  | .err m tr => .err m (evs ++ tr)
  | .fuelOut tr => .fuelOut (evs ++ tr)

/-- Whether the outcome is fuel exhaustion (the loop did not finish). -/
def RunOut.isFuelOut : RunOut → Bool
  | .fuelOut _ => true
  | _ => false

/-- The event trace of an outcome. -/
def RunOut.trace : RunOut → List Event
  | .done _ tr => tr
  | .err _ tr => tr
  | .fuelOut tr => tr

/-- `step.condition && !step.condition(context)`: the guard that makes the
engine skip a step. -/
def conditionBlocks (step : WorkflowStep) (context : AgentContext) : Bool :=
  match step.condition with
  | some c => !(c context)
  | none => false

/-- Next-step resolution (src/unnamed/part_005 lines 372–377 and 342–347):
a function `next` is invoked on the context, a static id is used as is,
and an absent `next` leaves `currentStepId` undefined. -/
def resolveNext (next : Option NextSelector) (context : AgentContext) : Option String :=
  match next with
  | none => none
  | some (.static stepId) => some stepId
  | some (.computed f) => some (f context)

/-- JS object spread `{ ...a, ...b }`: keys of `b` override keys of `a`. -/
def spreadMerge (a b : List (String × String)) : List (String × String) :=
  b.foldl (fun m kv => recordSet m kv.1 kv.2) a

/-- The `while (currentStepId)` loop of `runWorkflow`
(src/unnamed/part_005 lines 332–378), with fuel.  Per iteration: an absent
or empty (JS-falsy) `currentStepId` ends the loop; an id matching no step
breaks; a false `condition` skips dispatch but still resolves `next` on the
unchanged context; otherwise the step's task (its template input spread
together with the run input) is dispatched, the result recorded in
`context.results[step.id]` and pushed onto the result list, the approval
prompt fires when the result failed and `requireApproval` is set (a denial
breaks the loop), and `next` is resolved on the updated context. -/
def runSteps (agents : AgentRegistry) (approval : String → Bool) (workflow : Workflow)
    (input : Option (List (String × String))) (requireApproval : Bool) :
    Nat → AgentContext → Option String → RunOut
  | 0, _, _ => .fuelOut []
  | fuel + 1, context, currentStepId =>
    match currentStepId with
    | none => .done [] []
    | some sid =>
      if sid = "" then .done [] []
      else
        match workflow.steps.find? (fun s => s.id == sid) with
        | none => .done [] []
        | some step =>
          if conditionBlocks step context then
            RunOut.push [] [.skipped step.id]
              (runSteps agents approval workflow input requireApproval fuel context
                (resolveNext step.next context))
          else
            match executeTask agents
                { step.task with input := spreadMerge step.task.input (input.getD []) } context with
            | .error msg => .err msg [.dispatchFailure step.id]
            | .ok result =>
              let context2 : AgentContext :=
                { context with results := recordSet context.results step.id result }
              let entry : StepResult := ⟨step.name, result⟩
              if !result.success && requireApproval then
                let answer := approval ("Step " ++ step.name ++ " failed. Do you want to continue the workflow?")
                if !answer then
                  .done [entry] [.dispatch step.id result.success, .approval answer]
                else
                  RunOut.push [entry] [.dispatch step.id result.success, .approval answer]
                    (runSteps agents approval workflow input requireApproval fuel context2
                      (resolveNext step.next context2))
              else
                RunOut.push [entry] [.dispatch step.id result.success]
                  (runSteps agents approval workflow input requireApproval fuel context2
                    (resolveNext step.next context2))

/-- The resolved options of a run (`workflowOptions`): the source fills
them from the caller's options and the config defaults; they are taken
here already resolved. -/
structure WorkflowOptions where
  autoCommit : Bool
  commitMessage : String
  requireApproval : Bool

/-- The initial `context` `runWorkflow` builds: codebase snapshot, empty
results, and `options = { input }` when an input object was passed. -/
def initialContext (cb : Codebase) (input : Option (List (String × String))) : AgentContext :=
  { codebase := cb, results := [], options := input.map (fun i => ⟨i⟩) }

/-- `runWorkflow` (src/unnamed/part_005 lines 285–398): resolve the
workflow from the store (a miss throws out), build the context, start the
loop at `workflow.steps[0].id` (an empty step list makes that indexing
throw a TypeError), and after the loop ends — by whatever exit — run the
auto-commit block when `autoCommit` is set: `gitCommit` then `gitPush`,
any hook exception caught and logged, the result list returned unchanged.
An exception thrown inside the loop skips the auto-commit block and is
rethrown by the outer catch.  The codebase analyzer, git hooks and
approval prompt are passed in as the external collaborators they are. -/
def runWorkflow (agents : AgentRegistry) (approval : String → Bool)
    (gitCommit : String → Except String Unit) (gitPush : Unit → Except String Unit)
    (workflows : WorkflowStore) (workflowId : String)
    (input : Option (List (String × String))) (opts : WorkflowOptions)
    (cb : Codebase) (fuel : Nat) : RunOut :=
  match getWorkflow workflows workflowId with
  | .error msg => .err msg []
  | .ok workflow =>
    match workflow.steps with
    | [] => .err "TypeError: cannot read properties of undefined" []
    | firstStep :: _ =>
      match runSteps agents approval workflow input opts.requireApproval fuel
          (initialContext cb input) (some firstStep.id) with
      | .err msg tr => .err msg tr
      | .fuelOut tr => .fuelOut tr
      | .done results tr =>
        if opts.autoCommit then
          match gitCommit opts.commitMessage with
          | .error _ => .done results (tr ++ [.gitCommitCall])
          | .ok _ =>
            match gitPush () with
            | .error _ => .done results (tr ++ [.gitCommitCall, .gitPushCall])
            | .ok _ => .done results (tr ++ [.gitCommitCall, .gitPushCall])
        else .done results tr

/-! ### Concrete fixtures: stub workers, workflows and hooks used to
instantiate the theorems on explicit inputs. -/

/-- A successful stub result. -/
def stubResult : AgentResult :=
  { success := true, output := some "ok", error := none, metadata := [] }

/-- A failed stub result. -/
def failResult : AgentResult :=
  { success := false, output := none, error := some "boom", metadata := [] }

/-- A stub worker returning a fixed result for every task. -/
def constAgent (nm : String) (r : AgentResult) : Agent :=
  { name := nm, description := "stub", capabilities := [], executeTask := fun _ _ => r }

/-- A registry with a succeeding stub worker under every dispatcher key. -/
def stubAgents : AgentRegistry :=
  [("codeGeneration", constAgent "codeGeneration" stubResult),
   ("codeReview", constAgent "codeReview" stubResult),
   ("errorFixing", constAgent "errorFixing" stubResult),
   ("refactoring", constAgent "refactoring" stubResult),
   ("testing", constAgent "testing" stubResult),
   ("langgraph", constAgent "langgraph" stubResult)]

/-- A registry with a failing stub worker under every dispatcher key. -/
def failAgents : AgentRegistry :=
  [("codeGeneration", constAgent "codeGeneration" failResult),
   ("codeReview", constAgent "codeReview" failResult),
   ("errorFixing", constAgent "errorFixing" failResult),
   ("refactoring", constAgent "refactoring" failResult),
   ("testing", constAgent "testing" failResult),
   ("langgraph", constAgent "langgraph" failResult)]

/-- An empty codebase snapshot. -/
def emptyCodebase : Codebase := { rootDir := "/repo", files := [] }

/-- The context of a run started with no input. -/
def emptyCtx : AgentContext := initialContext emptyCodebase none

/-- A code-generation task template. -/
def cgTask (i : String) : AgentTask :=
  { id := i, type := "code-generation", description := "gen", input := [] }

/-- Step `a`, statically followed by step `b`. -/
def stepA : WorkflowStep :=
  { id := "a", name := "A", description := "first", task := cgTask "a",
    condition := none, next := some (.static "b") }

/-- Step `b`, terminal. -/
def stepB : WorkflowStep :=
  { id := "b", name := "B", description := "second", task := cgTask "b",
    condition := none, next := none }

/-- A two-step linear workflow `a → b`. -/
def linWf : Workflow :=
  { id := "lin", name := "Linear", description := "two steps", steps := [stepA, stepB] }

/-- A single failing terminal step. -/
def failStep : WorkflowStep :=
  { id := "f", name := "F", description := "fails", task := cgTask "f",
    condition := none, next := none }

/-- A one-step workflow whose step fails under `failAgents`. -/
def oneFailWf : Workflow :=
  { id := "one-fail", name := "OneFail", description := "fails once", steps := [failStep] }

/-- Step `f2`, failing under `failAgents`, statically followed by `g2`. -/
def stepF2 : WorkflowStep :=
  { id := "f2", name := "F2", description := "fails", task := cgTask "f2",
    condition := none, next := some (.static "g2") }

/-- Step `g2`, terminal. -/
def stepG2 : WorkflowStep :=
  { id := "g2", name := "G2", description := "fails", task := cgTask "g2",
    condition := none, next := none }

/-- A two-step workflow whose steps both fail under `failAgents`. -/
def twoFailWf : Workflow :=
  { id := "two-fail", name := "TwoFail", description := "fails twice", steps := [stepF2, stepG2] }

/-- Step `c1` whose condition is constantly false; `next` points at `c2`. -/
def stepC1 : WorkflowStep :=
  { id := "c1", name := "C1", description := "guarded", task := cgTask "c1",
    condition := some (fun _ => false), next := some (.static "c2") }

/-- Step `c2`, terminal. -/
def stepC2 : WorkflowStep :=
  { id := "c2", name := "C2", description := "plain", task := cgTask "c2",
    condition := none, next := none }

/-- A workflow whose first step is skipped by its condition. -/
def condWf : Workflow :=
  { id := "cond", name := "Cond", description := "guarded first step", steps := [stepC1, stepC2] }

/-- Step `d1` whose `next` names a step id that does not exist. -/
def stepD1 : WorkflowStep :=
  { id := "d1", name := "D1", description := "dangling next", task := cgTask "d1",
    condition := none, next := some (.static "ghost") }

/-- A workflow whose only step's `next` resolves to a nonexistent id. -/
def ghostWf : Workflow :=
  { id := "ghost", name := "Ghost", description := "dangling next", steps := [stepD1] }

/-- A step whose `next` points back at itself. -/
def cycStep : WorkflowStep :=
  { id := "loop", name := "Loop", description := "loops", task := cgTask "loop",
    condition := none, next := some (.static "loop") }

/-- A one-step workflow whose step's `next` points back at itself. -/
def cycWorkflow : Workflow :=
  { id := "cyc", name := "Cyclic", description := "self loop", steps := [cycStep] }

/-- The step list is an unbranched chain: each step's `next` is the static
id of the following step and the last step is terminal (the shape claim C8
quantifies over). -/
def chainNext : List WorkflowStep → Prop
  | [] => True
  | [s] => s.next = none
  | s :: t :: rest => s.next = some (.static t.id) ∧ chainNext (t :: rest)

/-- A valid workflow for the create/get round trip. -/
def sampleWf : Workflow :=
  { id := "sample", name := "Sample", description := "sample workflow", steps := [stepB] }

/-- A workflow violating every validation rule of `createWorkflow`. -/
def invalidWf : Workflow :=
  { id := "", name := "", description := "", steps := [] }

/-- A git commit hook that succeeds. -/
def gitOkCommit (_message : String) : Except String Unit := .ok ()

/-- A git commit hook that throws. -/
def gitFailCommit (_message : String) : Except String Unit := .error "git commit failed"

/-- A git push hook that succeeds. -/
def gitOkPush (_u : Unit) : Except String Unit := .ok ()

/-! ### Helper lemmas shared by the claim theorems. -/

-- Lookup after overwrite-insert returns the inserted value.
theorem recordGet_recordSet_self {α : Type} (m : List (String × α)) (k : String) (v : α) :
    recordGet (recordSet m k v) k = some v := by
  induction m with
  | nil => simp [recordSet, recordGet]
  | cons hd tl ih =>
    obtain ⟨k2, v2⟩ := hd
    by_cases h : k2 = k
    · subst h
      simp [recordSet, recordGet]
    · simp [recordSet, recordGet, h, ih]

-- A freshly registered workflow is retrievable at its id.
theorem getWorkflow_registerWorkflow (store : WorkflowStore) (w : Workflow) :
    getWorkflow (registerWorkflow store w) w.id = .ok w := by
  unfold getWorkflow registerWorkflow
  rw [recordGet_recordSet_self]

-- `push` preserves which constructor the outcome has.
theorem RunOut.push_isFuelOut (rs : List StepResult) (evs : List Event) (ro : RunOut) :
    (RunOut.push rs evs ro).isFuelOut = ro.isFuelOut := by
  cases ro <;> rfl

-- One engine iteration on a dispatched step whose outcome does not open the
-- approval gate (the result succeeded, or `requireApproval` is off).
theorem runSteps_exec_continue
    (agents : AgentRegistry) (approval : String → Bool) (wf : Workflow)
    (input : Option (List (String × String))) (ra : Bool) (fuel : Nat)
    (ctx : AgentContext) (sid : String) (step : WorkflowStep) (result : AgentResult)
    (hsid : sid ≠ "")
    (hfind : wf.steps.find? (fun s => s.id == sid) = some step)
    (hcond : conditionBlocks step ctx = false)
    (hexec : executeTask agents
      { step.task with input := spreadMerge step.task.input (input.getD []) } ctx = .ok result)
    (hgate : (!result.success && ra) = false) :
    runSteps agents approval wf input ra (fuel + 1) ctx (some sid) =
      RunOut.push [⟨step.name, result⟩] [.dispatch step.id result.success]
        (runSteps agents approval wf input ra fuel
          { ctx with results := recordSet ctx.results step.id result }
          (resolveNext step.next { ctx with results := recordSet ctx.results step.id result })) := by
  simp only [runSteps]
  rw [if_neg hsid, hfind]
  simp [hcond, hexec, hgate]

-- One engine iteration on a failed dispatched step with the gate open and
-- the approval callback denying continuation.
theorem runSteps_exec_gate_deny
    (agents : AgentRegistry) (approval : String → Bool) (wf : Workflow)
    (input : Option (List (String × String))) (fuel : Nat)
    (ctx : AgentContext) (sid : String) (step : WorkflowStep) (result : AgentResult)
    (hsid : sid ≠ "")
    (hfind : wf.steps.find? (fun s => s.id == sid) = some step)
    (hcond : conditionBlocks step ctx = false)
    (hexec : executeTask agents
      { step.task with input := spreadMerge step.task.input (input.getD []) } ctx = .ok result)
    (hfail : result.success = false)
    (happr : approval ("Step " ++ step.name ++ " failed. Do you want to continue the workflow?") = false) :
    runSteps agents approval wf input true (fuel + 1) ctx (some sid) =
      .done [⟨step.name, result⟩] [.dispatch step.id false, .approval false] := by
  simp only [runSteps]
  rw [if_neg hsid, hfind]
  simp [hcond, hexec, hfail, happr]

-- One engine iteration on a failed dispatched step with the gate open and
-- the approval callback allowing continuation.
theorem runSteps_exec_gate_allow
    (agents : AgentRegistry) (approval : String → Bool) (wf : Workflow)
    (input : Option (List (String × String))) (fuel : Nat)
    (ctx : AgentContext) (sid : String) (step : WorkflowStep) (result : AgentResult)
    (hsid : sid ≠ "")
    (hfind : wf.steps.find? (fun s => s.id == sid) = some step)
    (hcond : conditionBlocks step ctx = false)
    (hexec : executeTask agents
      { step.task with input := spreadMerge step.task.input (input.getD []) } ctx = .ok result)
    (hfail : result.success = false)
    (happr : approval ("Step " ++ step.name ++ " failed. Do you want to continue the workflow?") = true) :
    runSteps agents approval wf input true (fuel + 1) ctx (some sid) =
      RunOut.push [⟨step.name, result⟩] [.dispatch step.id false, .approval true]
        (runSteps agents approval wf input true fuel
          { ctx with results := recordSet ctx.results step.id result }
          (resolveNext step.next { ctx with results := recordSet ctx.results step.id result })) := by
  simp only [runSteps]
  rw [if_neg hsid, hfind]
  simp [hcond, hexec, hfail, happr]

/-! ### Claim theorems. -/

/-- Claim C1, counterexample: dispatch to a tag whose worker is not
registered does NOT yield a `success=false` Result — `executeTask` throws
(`Agent codeGeneration not found`), and the Engine surfaces it as a
run-level error (`RunOut.err`, empty result list), not as a failed step. -/
theorem dispatch_unregistered_throws_cex :
    executeTask [] (cgTask "s1") emptyCtx = .error "Agent codeGeneration not found" ∧
    runWorkflow [] askForApproval gitOkCommit gitOkPush [("one-fail", oneFailWf)] "one-fail" none
      { autoCommit := false, commitMessage := "m", requireApproval := false } emptyCodebase 5 =
      .err "Agent codeGeneration not found" [.dispatchFailure "f"] :=
  ⟨rfl, by decide⟩

/-- Claim C1, amended: for every task whose capability tag maps to an
unregistered worker name (or whose tag is unknown), `executeTask` throws an
error with a populated message, and the Engine propagates a dispatch-time
throw out of the step loop as a run-level error with no step result
recorded for that step. -/
theorem dispatch_unavailable_throws_and_propagates :
    (∀ (agents : AgentRegistry) (task : AgentTask) (ctx : AgentContext),
      workerUnavailable agents task = true →
      executeTask agents task ctx = .error (dispatchErrorMessage task) ∧
        dispatchErrorMessage task ≠ "")
    ∧ (∀ (agents : AgentRegistry) (approval : String → Bool) (wf : Workflow)
        (input : Option (List (String × String))) (ra : Bool) (fuel : Nat)
        (ctx : AgentContext) (sid : String) (step : WorkflowStep) (msg : String),
        sid ≠ "" →
        wf.steps.find? (fun s => s.id == sid) = some step →
        conditionBlocks step ctx = false →
        executeTask agents
          { step.task with input := spreadMerge step.task.input (input.getD []) } ctx = .error msg →
        runSteps agents approval wf input ra (fuel + 1) ctx (some sid) =
          .err msg [.dispatchFailure step.id]) := by
  constructor
  · intro agents task ctx h
    constructor
    · unfold executeTask
      split <;>
        simp_all [workerUnavailable, agentNameFor, dispatchErrorMessage, getAgent,
          Except.map, Option.isNone_iff_eq_none]
    · unfold dispatchErrorMessage
      cases hn : agentNameFor task.type with
      | none =>
        intro hcontra
        have hlen := congrArg String.length hcontra
        simp [String.length_append] at hlen
        exact absurd hlen.1 (by decide)
      | some n =>
        intro hcontra
        have hlen := congrArg String.length hcontra
        simp [String.length_append] at hlen
        exact absurd hlen.1.1 (by decide)
  · intro agents approval wf input ra fuel ctx sid step msg hsid hfind hcond hexec
    simp only [runSteps]
    rw [if_neg hsid, hfind]
    simp [hcond, hexec]

/-- Claim C1, witness for the amended theorem: the empty registry with a
`code-generation` task throws `Agent codeGeneration not found` out of the
dispatcher, and out of the engine loop as a run-level error. -/
theorem dispatch_unavailable_throws_and_propagates_inst :
    (executeTask [] (cgTask "w1") emptyCtx = .error (dispatchErrorMessage (cgTask "w1")) ∧
      dispatchErrorMessage (cgTask "w1") ≠ "") ∧
    runSteps [] askForApproval oneFailWf none false (2 + 1) emptyCtx (some "f") =
      .err "Agent codeGeneration not found" [.dispatchFailure "f"] :=
  ⟨dispatch_unavailable_throws_and_propagates.1 [] (cgTask "w1") emptyCtx (by decide),
   dispatch_unavailable_throws_and_propagates.2 [] askForApproval oneFailWf none false 2 emptyCtx
     "f" failStep "Agent codeGeneration not found" (by decide) rfl rfl rfl⟩

/-- Claim C2: with `requireApproval` on, a dispatched step whose Result
failed makes the engine invoke the approval callback exactly once (one
`approval` event, emitted before anything further happens): a denial ends
the run with exactly the steps up to and including the failed one in the
result list, an allowance continues the run at the failed step's resolved
`next`. -/
theorem approval_gate_fires_once_on_failure
    (agents : AgentRegistry) (approval : String → Bool) (wf : Workflow)
    (input : Option (List (String × String))) (fuel : Nat)
    (ctx : AgentContext) (sid : String) (step : WorkflowStep) (result : AgentResult)
    (hsid : sid ≠ "")
    (hfind : wf.steps.find? (fun s => s.id == sid) = some step)
    (hcond : conditionBlocks step ctx = false)
    (hexec : executeTask agents
      { step.task with input := spreadMerge step.task.input (input.getD []) } ctx = .ok result)
    (hfail : result.success = false) :
    runSteps agents approval wf input true (fuel + 1) ctx (some sid) =
      if approval ("Step " ++ step.name ++ " failed. Do you want to continue the workflow?") then
        RunOut.push [⟨step.name, result⟩] [.dispatch step.id false, .approval true]
          (runSteps agents approval wf input true fuel
            { ctx with results := recordSet ctx.results step.id result }
            (resolveNext step.next { ctx with results := recordSet ctx.results step.id result }))
      else
        .done [⟨step.name, result⟩] [.dispatch step.id false, .approval false] := by
  cases happr : approval ("Step " ++ step.name ++ " failed. Do you want to continue the workflow?")
  · rw [if_neg Bool.false_ne_true]
    exact runSteps_exec_gate_deny agents approval wf input fuel ctx sid step result
      hsid hfind hcond hexec hfail happr
  · rw [if_pos rfl]
    exact runSteps_exec_gate_allow agents approval wf input fuel ctx sid step result
      hsid hfind hcond hexec hfail happr

/-- Claim C2, witness: a denying callback on a failing one-step workflow
ends the run with exactly the failed step's entry and a single approval
event. -/
theorem approval_gate_fires_once_on_failure_inst :
    runSteps failAgents (fun _ => false) oneFailWf none true (3 + 1) emptyCtx (some "f") =
      .done [⟨"F", failResult⟩] [.dispatch "f" false, .approval false] := by
  rw [approval_gate_fires_once_on_failure failAgents (fun _ => false) oneFailWf none 3 emptyCtx
    "f" failStep failResult (by decide) rfl rfl rfl rfl]
  decide

/-- Claim C5: a step whose `condition` evaluates false on the current
context is skipped — its task is not dispatched (only a `skipped` event, no
result entry, the context untouched) — but its `next` selector is still
resolved on that context and the run proceeds there. -/
theorem condition_false_skips_dispatch
    (agents : AgentRegistry) (approval : String → Bool) (wf : Workflow)
    (input : Option (List (String × String))) (ra : Bool) (fuel : Nat)
    (ctx : AgentContext) (sid : String) (step : WorkflowStep) (c : AgentContext → Bool)
    (hsid : sid ≠ "")
    (hfind : wf.steps.find? (fun s => s.id == sid) = some step)
    (hcondition : step.condition = some c)
    (hc : c ctx = false) :
    runSteps agents approval wf input ra (fuel + 1) ctx (some sid) =
      RunOut.push [] [.skipped step.id]
        (runSteps agents approval wf input ra fuel ctx (resolveNext step.next ctx)) := by
  have hblocks : conditionBlocks step ctx = true := by
    simp [conditionBlocks, hcondition, hc]
  simp only [runSteps]
  rw [if_neg hsid, hfind]
  simp [hblocks]

/-- Claim C5, witness: the guarded first step of `condWf` is skipped, no
dispatch or result entry is recorded for it, and the run proceeds to `c2`. -/
theorem condition_false_skips_dispatch_inst :
    runSteps stubAgents askForApproval condWf none false (2 + 1) emptyCtx (some "c1") =
      .done [⟨"C2", stubResult⟩] [.skipped "c1", .dispatch "c2" true] := by
  rw [condition_false_skips_dispatch stubAgents askForApproval condWf none false 2 emptyCtx
    "c1" stepC1 (fun _ => false) (by decide) rfl rfl rfl]
  decide

/-- Claim C6: with `requireApproval` off, a failed step Result never
invokes the approval callback (no `approval` event) and the run proceeds
unconditionally to the step resolved by the failed step's `next`. -/
theorem no_approval_when_disabled
    (agents : AgentRegistry) (approval : String → Bool) (wf : Workflow)
    (input : Option (List (String × String))) (fuel : Nat)
    (ctx : AgentContext) (sid : String) (step : WorkflowStep) (result : AgentResult)
    (hsid : sid ≠ "")
    (hfind : wf.steps.find? (fun s => s.id == sid) = some step)
    (hcond : conditionBlocks step ctx = false)
    (hexec : executeTask agents
      { step.task with input := spreadMerge step.task.input (input.getD []) } ctx = .ok result)
    (hfail : result.success = false) :
    runSteps agents approval wf input false (fuel + 1) ctx (some sid) =
      RunOut.push [⟨step.name, result⟩] [.dispatch step.id false]
        (runSteps agents approval wf input false fuel
          { ctx with results := recordSet ctx.results step.id result }
          (resolveNext step.next { ctx with results := recordSet ctx.results step.id result })) := by
  have h := runSteps_exec_continue agents approval wf input false fuel ctx sid step result
    hsid hfind hcond hexec (by simp)
  rw [hfail] at h
  exact h

/-- Claim C6, witness: with approval off, a workflow of two failing steps
runs both with no approval event, continuing past the first failure. -/
theorem no_approval_when_disabled_inst :
    runSteps failAgents askForApproval twoFailWf none false (2 + 1) emptyCtx (some "f2") =
      .done [⟨"F2", failResult⟩, ⟨"G2", failResult⟩]
        [.dispatch "f2" false, .dispatch "g2" false] := by
  rw [no_approval_when_disabled failAgents askForApproval twoFailWf none 2 emptyCtx
    "f2" stepF2 failResult (by decide) rfl rfl rfl rfl]
  decide

/-- Claim C7: when a dispatched step's resolved `next` id matches no step
of the workflow, the engine stops silently as completed — `RunOut.done`,
no error — and the already-collected step output (here the final step's
entry) is retained in the returned result list. -/
theorem unmatched_next_completes
    (agents : AgentRegistry) (approval : String → Bool) (wf : Workflow)
    (input : Option (List (String × String))) (ra : Bool) (fuel : Nat)
    (ctx : AgentContext) (sid : String) (step : WorkflowStep) (result : AgentResult) (nid : String)
    (hsid : sid ≠ "")
    (hfind : wf.steps.find? (fun s => s.id == sid) = some step)
    (hcond : conditionBlocks step ctx = false)
    (hexec : executeTask agents
      { step.task with input := spreadMerge step.task.input (input.getD []) } ctx = .ok result)
    (hsucc : result.success = true)
    (hnext : resolveNext step.next
      { ctx with results := recordSet ctx.results step.id result } = some nid)
    (hnid : nid ≠ "")
    (hmiss : wf.steps.find? (fun s => s.id == nid) = none) :
    runSteps agents approval wf input ra (fuel + 1 + 1) ctx (some sid) =
      .done [⟨step.name, result⟩] [.dispatch step.id true] := by
  have h := runSteps_exec_continue agents approval wf input ra (fuel + 1) ctx sid step result
    hsid hfind hcond hexec (by simp [hsucc])
  rw [hsucc] at h
  rw [h, hnext]
  simp only [runSteps]
  rw [if_neg hnid, hmiss]
  rfl

/-- Claim C7, witness: `ghostWf`'s only step succeeds and names a
nonexistent `next`; the run completes silently with that step's result. -/
theorem unmatched_next_completes_inst :
    runSteps stubAgents askForApproval ghostWf none false (1 + 1 + 1) emptyCtx (some "d1") =
      .done [⟨"D1", stubResult⟩] [.dispatch "d1" true] :=
  unmatched_next_completes stubAgents askForApproval ghostWf none false 1 emptyCtx
    "d1" stepD1 stubResult "ghost" (by decide) rfl rfl rfl rfl rfl (by decide) rfl

/-- Claim C4, counterexample: the store's Register operation
(`registerWorkflow`) does not validate — a workflow with empty id, name,
description and step list is registered without error and is retrievable,
contradicting "fails with InvalidDefinitionError ... and nothing is
registered". -/
theorem registerWorkflow_no_validation_cex :
    registerWorkflow [] invalidWf = [("", invalidWf)] ∧
    getWorkflow (registerWorkflow [] invalidWf) "" = .ok invalidWf :=
  ⟨rfl, rfl⟩

/-- Claim C4, amended: `registerWorkflow` itself inserts unconditionally by
id (overwrite semantics, even for invalid definitions); the validation the
claim describes lives in `createWorkflow`, which fails with
`Invalid workflow definition` — registering nothing — when id, name or
description is empty or the step list is empty, and otherwise registers by
id. -/
theorem workflow_validation_in_createWorkflow :
    (∀ (store : WorkflowStore) (w : Workflow),
      getWorkflow (registerWorkflow store w) w.id = .ok w)
    ∧ (∀ (store : WorkflowStore) (w : Workflow),
      w.id = "" ∨ w.name = "" ∨ w.description = "" ∨ w.steps = [] →
      createWorkflow store w = .error "Invalid workflow definition")
    ∧ (∀ (store : WorkflowStore) (w : Workflow),
      w.id ≠ "" → w.name ≠ "" → w.description ≠ "" → w.steps ≠ [] →
      createWorkflow store w = .ok (registerWorkflow store w, w)) := by
  refine ⟨getWorkflow_registerWorkflow, fun store w h => ?_, fun store w h1 h2 h3 h4 => ?_⟩
  · unfold createWorkflow
    rw [if_pos]
    simpa [List.isEmpty_iff] using h
  · unfold createWorkflow
    rw [if_neg]
    simp [List.isEmpty_iff, h1, h2, h3, h4]

/-- Claim C4, witness: the invalid workflow is nevertheless inserted by
`registerWorkflow`; `createWorkflow` rejects it and accepts `sampleWf`. -/
theorem workflow_validation_in_createWorkflow_inst :
    getWorkflow (registerWorkflow [] invalidWf) invalidWf.id = .ok invalidWf ∧
    createWorkflow [] invalidWf = .error "Invalid workflow definition" ∧
    createWorkflow [] sampleWf = .ok (registerWorkflow [] sampleWf, sampleWf) :=
  ⟨workflow_validation_in_createWorkflow.1 [] invalidWf,
   workflow_validation_in_createWorkflow.2.1 [] invalidWf (Or.inl rfl),
   workflow_validation_in_createWorkflow.2.2 [] sampleWf (by decide) (by decide) (by decide)
     (List.cons_ne_nil _ _)⟩

/-- Claim C9: `createWorkflow` followed by `getWorkflow` on the same id
returns the very workflow that was created (hence equal in id, name,
description and step count). -/
theorem createWorkflow_getWorkflow_roundtrip
    (store : WorkflowStore) (w : Workflow) (pr : WorkflowStore × Workflow)
    (h : createWorkflow store w = .ok pr) :
    getWorkflow pr.1 w.id = .ok w := by
  unfold createWorkflow at h
  by_cases hvalid : w.id = "" ∨ w.name = "" ∨ w.description = "" ∨ w.steps.isEmpty = true
  · rw [if_pos hvalid] at h
    exact absurd h (by simp)
  · rw [if_neg hvalid] at h
    obtain rfl : (registerWorkflow store w, w) = pr := by
      simpa using h
    exact getWorkflow_registerWorkflow store w

/-- Claim C9, witness: creating `sampleWf` in the empty store and looking
up `"sample"` returns it. -/
theorem createWorkflow_getWorkflow_roundtrip_inst :
    getWorkflow (registerWorkflow [] sampleWf) "sample" = .ok sampleWf :=
  createWorkflow_getWorkflow_roundtrip [] sampleWf (registerWorkflow [] sampleWf, sampleWf) rfl

/-- Claim C3, counterexample: a run with `autoCommit=true` that terminates
Aborted — the step failed and the approval callback denied continuation —
still invokes the commit/publish hook: `gitCommitCall` and `gitPushCall`
follow the denial in the trace, contradicting "invoked only when the run
terminates in the Completed state and not when it terminates Aborted". -/
theorem autoCommit_on_aborted_run_cex :
    runWorkflow failAgents (fun _ => false) gitOkCommit gitOkPush [("one-fail", oneFailWf)]
      "one-fail" none { autoCommit := true, commitMessage := "m", requireApproval := true }
      emptyCodebase 5 =
      .done [⟨"F", failResult⟩]
        [.dispatch "f" false, .approval false, .gitCommitCall, .gitPushCall] ∧
    Event.gitCommitCall ∈ RunOut.trace (runWorkflow failAgents (fun _ => false) gitOkCommit
      gitOkPush [("one-fail", oneFailWf)] "one-fail" none
      { autoCommit := true, commitMessage := "m", requireApproval := true } emptyCodebase 5) :=
  ⟨by decide, by decide⟩

/-- Claim C3, amended: with `autoCommit=true` the commit/publish hook
(`gitCommit`, then `gitPush` only if the commit succeeded) runs whenever
the step loop finishes without an exception — after Completed AND after
Aborted-by-denial alike — a hook failure leaves the returned step results
unchanged, and the hook is skipped only when an exception propagates out
of the loop. -/
theorem autoCommit_after_loop_end :
    (∀ (agents : AgentRegistry) (approval : String → Bool)
        (gitCommit : String → Except String Unit) (gitPush : Unit → Except String Unit)
        (store : WorkflowStore) (wid : String) (input : Option (List (String × String)))
        (opts : WorkflowOptions) (cb : Codebase) (fuel : Nat)
        (wf : Workflow) (s0 : WorkflowStep) (rest : List WorkflowStep)
        (results : List StepResult) (tr : List Event),
      getWorkflow store wid = .ok wf →
      wf.steps = s0 :: rest →
      runSteps agents approval wf input opts.requireApproval fuel (initialContext cb input)
        (some s0.id) = .done results tr →
      opts.autoCommit = true →
      runWorkflow agents approval gitCommit gitPush store wid input opts cb fuel =
        .done results (tr ++ match gitCommit opts.commitMessage with
          | .ok _ => [Event.gitCommitCall, Event.gitPushCall]
          | .error _ => [Event.gitCommitCall]))
    ∧ (∀ (agents : AgentRegistry) (approval : String → Bool)
        (gitCommit : String → Except String Unit) (gitPush : Unit → Except String Unit)
        (store : WorkflowStore) (wid : String) (input : Option (List (String × String)))
        (opts : WorkflowOptions) (cb : Codebase) (fuel : Nat)
        (wf : Workflow) (s0 : WorkflowStep) (rest : List WorkflowStep)
        (msg : String) (tr : List Event),
      getWorkflow store wid = .ok wf →
      wf.steps = s0 :: rest →
      runSteps agents approval wf input opts.requireApproval fuel (initialContext cb input)
        (some s0.id) = .err msg tr →
      runWorkflow agents approval gitCommit gitPush store wid input opts cb fuel =
        .err msg tr) := by
  constructor
  · intro agents approval gitCommit gitPush store wid input opts cb fuel wf s0 rest results tr
      hget hsteps hloop hac
    unfold runWorkflow
    simp only [hget, hsteps, hloop, hac, if_true]
    cases hgc : gitCommit opts.commitMessage with
    | error e => simp
    | ok u =>
      cases hgp : gitPush () with
      | error e => simp
      | ok u2 => simp
  · intro agents approval gitCommit gitPush store wid input opts cb fuel wf s0 rest msg tr
      hget hsteps hloop
    unfold runWorkflow
    simp only [hget, hsteps, hloop]

/-- Claim C3, witness: on the aborted one-step run, a failing commit hook
is caught — only `gitCommitCall` is traced, no push — and the collected
step results are still returned. -/
theorem autoCommit_after_loop_end_inst :
    runWorkflow failAgents (fun _ => false) gitFailCommit gitOkPush [("one-fail", oneFailWf)]
      "one-fail" none { autoCommit := true, commitMessage := "m", requireApproval := true }
      emptyCodebase 5 =
      .done [⟨"F", failResult⟩]
        [.dispatch "f" false, .approval false, .gitCommitCall] := by
  have h := autoCommit_after_loop_end.1 failAgents (fun _ => false) gitFailCommit gitOkPush
    [("one-fail", oneFailWf)] "one-fail" none
    { autoCommit := true, commitMessage := "m", requireApproval := true } emptyCodebase 5
    oneFailWf failStep [] [⟨"F", failResult⟩] [.dispatch "f" false, .approval false]
    rfl rfl (by decide) rfl
  simpa [gitFailCommit] using h

-- With duplicate-free step ids, the engine's linear search finds exactly
-- the step occupying the split position.
theorem find?_id_of_nodup (steps pre post : List WorkflowStep) (cur : WorkflowStep)
    (hsplit : steps = pre ++ cur :: post)
    (hnodup : (steps.map (fun s => s.id)).Nodup) :
    steps.find? (fun s => s.id == cur.id) = some cur := by
  subst hsplit
  rw [List.find?_append]
  have hdisj := (List.nodup_append.mp (by simpa [List.map_append] using hnodup)).2.2
  have hpre : pre.find? (fun s => s.id == cur.id) = none := by
    rw [List.find?_eq_none]
    intro x hx
    simp only [beq_iff_eq]
    intro hxid
    exact hdisj (a := x.id) (List.mem_map_of_mem (fun s => s.id) hx)
      (by simp [hxid])
  rw [hpre]
  simp [List.find?_cons_of_pos]

-- A stub-success run of a duplicate-free unbranched chain dispatches every
-- remaining step, in order, one result per step.
theorem runSteps_chain
    (agents : AgentRegistry) (approval : String → Bool) (wf : Workflow)
    (input : Option (List (String × String))) (ra : Bool) (r : AgentResult)
    (hr : r.success = true)
    (hnodup : (wf.steps.map (fun s => s.id)).Nodup)
    (hcondnone : ∀ s ∈ wf.steps, s.condition = none)
    (hids : ∀ s ∈ wf.steps, s.id ≠ "")
    (hstub : ∀ s ∈ wf.steps, ∀ ctx : AgentContext, executeTask agents
      { s.task with input := spreadMerge s.task.input (input.getD []) } ctx = .ok r) :
    ∀ (post : List WorkflowStep) (cur : WorkflowStep) (pre : List WorkflowStep)
      (ctx : AgentContext),
      wf.steps = pre ++ cur :: post →
      chainNext (cur :: post) →
      runSteps agents approval wf input ra (post.length + 1 + 1) ctx (some cur.id) =
        .done ((cur :: post).map (fun s => ⟨s.name, r⟩))
          ((cur :: post).map (fun s => .dispatch s.id true)) := by
  intro post
  induction post with
  | nil =>
    intro cur pre ctx hsplit hchain
    have hmem : cur ∈ wf.steps := by rw [hsplit]; simp
    have hfind := find?_id_of_nodup wf.steps pre [] cur hsplit hnodup
    have hcond : conditionBlocks cur ctx = false := by
      simp [conditionBlocks, hcondnone cur hmem]
    have h := runSteps_exec_continue agents approval wf input ra 1 ctx cur.id cur r
      (hids cur hmem) hfind hcond (hstub cur hmem ctx) (by simp [hr])
    rw [hr] at h
    rw [show ([] : List WorkflowStep).length + 1 + 1 = 1 + 1 from rfl, h]
    have hterm : cur.next = none := hchain
    simp [hterm, resolveNext, runSteps, RunOut.push]
  | cons t rest ih =>
    intro cur pre ctx hsplit hchain
    obtain ⟨hstatic, hchain2⟩ := hchain
    have hmem : cur ∈ wf.steps := by rw [hsplit]; simp
    have hfind := find?_id_of_nodup wf.steps pre (t :: rest) cur hsplit hnodup
    have hcond : conditionBlocks cur ctx = false := by
      simp [conditionBlocks, hcondnone cur hmem]
    have h := runSteps_exec_continue agents approval wf input ra ((t :: rest).length + 1)
      ctx cur.id cur r (hids cur hmem) hfind hcond (hstub cur hmem ctx) (by simp [hr])
    rw [hr] at h
    rw [show (t :: rest).length + 1 + 1 = ((t :: rest).length + 1) + 1 from rfl, h, hstatic]
    have hrec := ih t (pre ++ [cur])
      { ctx with results := recordSet ctx.results cur.id r }
      (by rw [hsplit]; simp) hchain2
    rw [show (t :: rest).length + 1 = rest.length + 1 + 1 from rfl]
    rw [show resolveNext (some (.static t.id))
        { ctx with results := recordSet ctx.results cur.id r } = some t.id from rfl]
    rw [hrec]
    simp [RunOut.push]

/-- Claim C8: a workflow whose steps form an unbranched, condition-free,
duplicate-free chain, run against a dispatcher that answers every step
with the same successful result, dispatches exactly its N steps in
declaration order and returns a result list of length N (one entry per
step, in order). -/
theorem linear_workflow_visits_all_steps
    (agents : AgentRegistry) (approval : String → Bool)
    (gitCommit : String → Except String Unit) (gitPush : Unit → Except String Unit)
    (store : WorkflowStore) (wid : String) (input : Option (List (String × String)))
    (opts : WorkflowOptions) (cb : Codebase)
    (wf : Workflow) (s0 : WorkflowStep) (rest : List WorkflowStep) (r : AgentResult)
    (hget : getWorkflow store wid = .ok wf)
    (hsteps : wf.steps = s0 :: rest)
    (hchain : chainNext wf.steps)
    (hnodup : (wf.steps.map (fun s => s.id)).Nodup)
    (hcondnone : ∀ s ∈ wf.steps, s.condition = none)
    (hids : ∀ s ∈ wf.steps, s.id ≠ "")
    (hstub : ∀ s ∈ wf.steps, ∀ ctx : AgentContext, executeTask agents
      { s.task with input := spreadMerge s.task.input (input.getD []) } ctx = .ok r)
    (hr : r.success = true)
    (hnc : opts.autoCommit = false) :
    runWorkflow agents approval gitCommit gitPush store wid input opts cb
      (wf.steps.length + 1) =
      .done (wf.steps.map (fun s => ⟨s.name, r⟩))
        (wf.steps.map (fun s => .dispatch s.id true)) := by
  have hloop := runSteps_chain agents approval wf input opts.requireApproval r hr hnodup
    hcondnone hids hstub rest s0 [] (initialContext cb input) (by simpa using hsteps)
    (hsteps ▸ hchain)
  unfold runWorkflow
  rw [hget]
  simp only [hsteps, List.length_cons]
  rw [hloop, hnc]
  simp

/-- Claim C8, witness: the two-step linear workflow `linWf` under the
always-succeeding stub registry dispatches `a` then `b` and returns two
results in declaration order. -/
theorem linear_workflow_visits_all_steps_inst :
    runWorkflow stubAgents askForApproval gitOkCommit gitOkPush [("lin", linWf)] "lin" none
      { autoCommit := false, commitMessage := "m", requireApproval := false } emptyCodebase
      (linWf.steps.length + 1) =
      .done [⟨"A", stubResult⟩, ⟨"B", stubResult⟩] [.dispatch "a" true, .dispatch "b" true] := by
  have h := linear_workflow_visits_all_steps stubAgents askForApproval gitOkCommit gitOkPush
    [("lin", linWf)] "lin" none
    { autoCommit := false, commitMessage := "m", requireApproval := false } emptyCodebase
    linWf stepA [stepB] stubResult rfl rfl ⟨rfl, rfl⟩ (by decide)
    (by
      intro s hs
      simp only [linWf, List.mem_cons, List.not_mem_nil, or_false] at hs
      rcases hs with h | h <;> subst h <;> rfl)
    (by
      intro s hs
      simp only [linWf, List.mem_cons, List.not_mem_nil, or_false] at hs
      rcases hs with h | h <;> subst h <;> decide)
    (by
      intro s hs ctx
      simp only [linWf, List.mem_cons, List.not_mem_nil, or_false] at hs
      rcases hs with h | h <;> subst h <;> rfl)
    rfl rfl
  simpa using h

/-- Claim C10: the step loop terminates whenever the workflow's next-step
references are acyclic — witnessed by a rank function that every possible
resolved transition strictly decreases, so fuel `rank(start) + 2` is never
exhausted — while the engine keeps no visited set and no iteration bound,
so on a workflow whose `next` cycles back to the current step (condition
absent, stub success) the loop runs out of ANY amount of fuel: it never
terminates. -/
theorem engine_termination_cycle_divergence :
    (∀ (agents : AgentRegistry) (approval : String → Bool) (wf : Workflow)
        (input : Option (List (String × String))) (ra : Bool) (rank : String → Nat),
      (∀ s ∈ wf.steps, ∀ (ctx : AgentContext) (nid : String),
        resolveNext s.next ctx = some nid → nid ≠ "" → rank nid < rank s.id) →
      ∀ (fuel : Nat) (ctx : AgentContext) (sid : String),
        rank sid + 2 ≤ fuel →
        (runSteps agents approval wf input ra fuel ctx (some sid)).isFuelOut = false)
    ∧ (∀ (fuel : Nat) (ctx : AgentContext),
      (runSteps stubAgents askForApproval cycWorkflow none false fuel ctx
        (some "loop")).isFuelOut = true) := by
  constructor
  · intro agents approval wf input ra rank hrank fuel
    induction fuel with
    | zero => intro ctx sid hle; omega
    | succ n ih =>
      intro ctx sid hle
      by_cases hsid : sid = ""
      · subst hsid
        simp [runSteps, RunOut.isFuelOut]
      · cases hfind : wf.steps.find? (fun s => s.id == sid) with
        | none =>
          simp only [runSteps]
          rw [if_neg hsid, hfind]
          rfl
        | some step =>
          have hmem := List.mem_of_find?_eq_some hfind
          have hid : step.id = sid := by simpa using List.find?_some hfind
          have hcont : ∀ ctx' : AgentContext,
              (runSteps agents approval wf input ra n ctx'
                (resolveNext step.next ctx')).isFuelOut = false := by
            intro ctx'
            obtain ⟨m, rfl⟩ : ∃ m, n = m + 1 := ⟨n - 1, by omega⟩
            cases hres : resolveNext step.next ctx' with
            | none => simp [runSteps, RunOut.isFuelOut]
            | some nid =>
              by_cases hne : nid = ""
              · subst hne
                simp [runSteps, RunOut.isFuelOut]
              · have hlt := hrank step hmem ctx' nid hres hne
                rw [hid] at hlt
                exact ih ctx' nid (by omega)
          cases hcond : conditionBlocks step ctx with
          | true =>
            simp only [runSteps]
            rw [if_neg hsid, hfind]
            simp only [hcond, if_true]
            rw [RunOut.push_isFuelOut]
            exact hcont ctx
          | false =>
            cases hexec : executeTask agents
                { step.task with input := spreadMerge step.task.input (input.getD []) } ctx with
            | error msg =>
              simp only [runSteps]
              rw [if_neg hsid, hfind]
              simp [hcond, hexec, RunOut.isFuelOut]
            | ok result =>
              by_cases hgate : (!result.success && ra) = true
              · obtain ⟨hnsucc, hra⟩ : (!result.success) = true ∧ ra = true := by
                  simpa using hgate
                subst hra
                have hfail : result.success = false := by
                  simpa using hnsucc
                cases happr : approval
                    ("Step " ++ step.name ++ " failed. Do you want to continue the workflow?") with
                | false =>
                  rw [runSteps_exec_gate_deny agents approval wf input n ctx sid step result
                    hsid hfind hcond hexec hfail happr]
                  rfl
                | true =>
                  rw [runSteps_exec_gate_allow agents approval wf input n ctx sid step result
                    hsid hfind hcond hexec hfail happr]
                  rw [RunOut.push_isFuelOut]
                  exact hcont _
              · rw [runSteps_exec_continue agents approval wf input ra n ctx sid step result
                  hsid hfind hcond hexec (by simpa using hgate)]
                rw [RunOut.push_isFuelOut]
                exact hcont _
  · intro fuel
    induction fuel with
    | zero => intro ctx; rfl
    | succ n ih =>
      intro ctx
      rw [runSteps_exec_continue stubAgents askForApproval cycWorkflow none false n ctx "loop"
        cycStep stubResult (by decide) rfl rfl rfl (by decide)]
      rw [RunOut.push_isFuelOut]
      exact ih _

/-- Claim C10, witness: the acyclic two-step chain finishes within its
rank-derived fuel, while the self-looping workflow has exhausted a concrete
fuel of 9 without terminating. -/
theorem engine_termination_cycle_divergence_inst :
    (runSteps stubAgents askForApproval linWf none false 4 emptyCtx (some "a")).isFuelOut =
      false ∧
    (runSteps stubAgents askForApproval cycWorkflow none false 9 emptyCtx
      (some "loop")).isFuelOut = true :=
  ⟨engine_termination_cycle_divergence.1 stubAgents askForApproval linWf none false
    (fun sid => if sid = "a" then 2 else if sid = "b" then 1 else 0)
    (by
      intro s hs ctx nid hres hne
      simp only [linWf, List.mem_cons, List.not_mem_nil, or_false] at hs
      rcases hs with h | h <;> subst h <;> simp [stepA, stepB, resolveNext] at hres
      subst hres
      decide)
    4 emptyCtx "a" (by decide),
   engine_termination_cycle_divergence.2 9 emptyCtx⟩

end RedEyeAgent
